import Mathlib

/-!
Verification development for the rail_projects bookkeeping layer
(LSSTDESC/rail_projects).

The development shallowly embeds the configuration data model
(YAML-like values), the name/path template resolver, the
flavor/override deep-merge composition, the factory/registry
subsystem and the Configurable schema validation, and proves the
behavioural properties stated in the documentation.

The Python implementation of the core (rail.projects.name_utils,
rail.projects.project, rail.projects.factory_mixin,
rail.projects.configurable, rail.projects.pipeline_factory) is not
part of the available sources; every definition that stands in for it
is marked "Modelled from the spec" and follows the specification
text, the module documentation, and the example configuration files
(tests/ci_project.yaml, tests/ci_pipelines.yaml).
-/

/-- Modelled from the spec: the YAML-like configuration values handled by
rail_projects (scalars, lists of strings, null, and nested mappings with
insertion order preserved).  Mapping values are association lists from
string keys to values, matching the ordered-dict behaviour of the Python
implementation. -/
inductive Value where
  | s : String → Value
  | n : Nat → Value
  | b : Bool → Value
  | ls : List String → Value
  | null : Value
  | dict : List (String × Value) → Value

/-- Association-list lookup keyed by strings; first binding wins, matching
Python dict semantics on well-formed (duplicate-free) data. -/
def alookup {α : Type} : List (String × α) → String → Option α
  | [], _ => none
  | (k2, v) :: rest, k => if k2 = k then some v else alookup rest k

/-- True exactly on mapping values. -/
def Value.isDict : Value → Bool
  | .dict _ => true
  | _ => false

/-- Modelled from the spec: the recursive override merge used by flavors and
pipeline overrides (rail.projects.project).  Merging is recursive for
mapping values and replacing for scalar/list values: when both sides are
mappings, keys of the base are kept in order with common keys merged
recursively, and keys only present in the override are appended; in every
other case the override value wins wholesale. -/
def deepMerge : Value → Value → Value
  | .dict a, .dict bb =>
      .dict ((a.attach.map (fun kv =>
          match alookup bb kv.1.1 with
          | some w => (kv.1.1, deepMerge kv.1.2 w)
          | none => kv.1))
        ++ bb.filter (fun kv => (alookup a kv.1).isNone))
  | _, v => v
termination_by x _ => sizeOf x
decreasing_by
  rcases kv with ⟨⟨k, v⟩, hm⟩
  have h := List.sizeOf_lt_of_mem hm
  simp_wf
  simp at h
  omega

/-- One merged entry of the base mapping: common keys are merged
recursively, others kept. -/
def mergeEntry (bb : List (String × Value)) (kv : String × Value) : String × Value :=
  match alookup bb kv.1 with
  | some w => (kv.1, deepMerge kv.2 w)
  | none => kv

/-- The field list of a merged mapping. -/
def mergeFields (a bb : List (String × Value)) : List (String × Value) :=
  a.map (mergeEntry bb) ++ bb.filter (fun kv => (alookup a kv.1).isNone)

/-- Path lookup inside nested mapping values (a key path addresses a value
through successive mapping keys). -/
def lookupPath : Value → List String → Option Value
  | v, [] => some v
  | .dict fields, k :: rest =>
      match alookup fields k with
      | some v => lookupPath v rest
      | none => none
  | _, _ :: _ => none

/-- Tokens of a parsed path template: literal runs and placeholder
occurrences. -/
inductive Tok where
  | lit : String → Tok
  | var : String → Tok
  deriving DecidableEq

/-- True exactly on placeholder tokens. -/
def Tok.isVar : Tok → Bool
  | .var _ => true
  | .lit _ => false

/-- Modelled from the spec: single-pass scanner for the brace placeholders
of a path template (rail.projects.name_utils).  The first flag records
whether the scan is inside a placeholder, the accumulator holds the
characters read so far in reverse.  An unterminated placeholder is kept
as literal text. -/
def parseTemplateAux : Bool → List Char → List Char → List Tok
  | false, acc, [] => if acc.isEmpty then [] else [.lit (String.mk acc.reverse)]
  | false, acc, c :: rest =>
      if c = '\x7b' then
        if acc.isEmpty then parseTemplateAux true [] rest
        else .lit (String.mk acc.reverse) :: parseTemplateAux true [] rest
      else parseTemplateAux false (c :: acc) rest
  | true, acc, [] => [.lit (String.mk ('\x7b' :: acc.reverse))]
  | true, acc, c :: rest =>
      if c = '\x7d' then .var (String.mk acc.reverse) :: parseTemplateAux false [] rest
      else parseTemplateAux true (c :: acc) rest

/-- Parse a template string into its token sequence. -/
def parseTemplate (s : String) : List Tok :=
  parseTemplateAux false [] s.data

/-- The error taxonomy of the core (spec section 7). -/
inductive ErrCode where
  | missingInterpolant : String → ErrCode
  | cyclicTemplate : ErrCode
  | unknownComponent : ErrCode
  | duplicateComponent : ErrCode
  | unknownFlavor : ErrCode
  | duplicateFlavor : ErrCode
  | invalidConfiguration : List String → ErrCode
  deriving DecidableEq

/-- Modelled from the spec: render a token sequence against string
bindings; every placeholder must have a binding, otherwise the resolution
fails with MissingInterpolant naming the placeholder. -/
def renderToks (bnd : List (String × String)) : List Tok → Except ErrCode String
  | [] => .ok ""
  | .lit t :: rest =>
      match renderToks bnd rest with
      | .ok r => .ok (t ++ r)
      | .error e => .error e
  | .var k :: rest =>
      match alookup bnd k with
      | some v =>
          match renderToks bnd rest with
          | .ok r => .ok (v ++ r)
          | .error e => .error e
      | none => .error (.missingInterpolant k)

/-- Modelled from the spec: substitute every brace placeholder of the
template using the bindings (one substitution pass). -/
def interpolate (tmpl : String) (bnd : List (String × String)) : Except ErrCode String :=
  renderToks bnd (parseTemplate tmpl)

/-- A string still holds an unresolved placeholder when its parse contains
a placeholder token. -/
def hasPlaceholder (s : String) : Bool :=
  (parseTemplate s).any Tok.isVar

/-- Modelled from the spec: the maximum substitution iteration count used
to detect cyclic binding definitions; the exact bound is not fixed by the
specification, only its existence. -/
def maxIterations : Nat := 20

/-- Modelled from the spec: iterate substitution until no placeholder
remains (fixed point); when the iteration budget runs out before the
placeholders disappear the binding definitions are cyclic and the
resolution fails with CyclicTemplateError. -/
def resolveNestedAux : Nat → String → List (String × String) → Except ErrCode String
  | 0, _, _ => .error .cyclicTemplate
  | fuel + 1, t, bnd =>
      if hasPlaceholder t then
        match interpolate t bnd with
        | .ok t2 => resolveNestedAux fuel t2 bnd
        | .error e => .error e
      else .ok t

/-- Modelled from the spec: resolve a template to a single fully-expanded
string, following transitive binding references to a fixed point. -/
def resolveTemplate (tmpl : String) (bnd : List (String × String)) : Except ErrCode String :=
  resolveNestedAux maxIterations tmpl bnd

/-- Error-propagating map over a list (the shape of resolving one path per
iteration-variable combination). -/
def mapExcept {α β : Type} (f : α → Except ErrCode β) : List α → Except ErrCode (List β)
  | [] => .ok []
  | x :: xs =>
      match f x with
      | .ok y =>
          match mapExcept f xs with
          | .ok ys => .ok (y :: ys)
          | .error e => .error e
      | .error e => .error e

/-- Modelled from the spec: the cross product over the iteration-variable
sequences, taken in the order the variables were declared; each element is
one combination of bindings. -/
def iterCombos : List (String × List String) → List (List (String × String))
  | [] => [[]]
  | (k, vs) :: rest =>
      (vs.map (fun v => (iterCombos rest).map (fun combo => (k, v) :: combo))).flatten

/-- Modelled from the spec: resolve a template once per iteration-variable
combination, producing one fully-resolved path per combination, in cross
product order. -/
def resolveIter (tmpl : String) (bnd : List (String × String))
    (ivs : List (String × List String)) : Except ErrCode (List String) :=
  mapExcept (fun combo => resolveTemplate tmpl (combo ++ bnd)) (iterCombos ivs)

/-- The cardinality of the iteration expansion: the product of the lengths
of the iteration-variable sequences. -/
def prodLens : List (String × List String) → Nat
  | [] => 1
  | (_, vs) :: rest => vs.length * prodLens rest

/-- Modelled from the spec: the top-level project aggregate
(rail.projects.project.RailProject) — CommonPaths, PathTemplates,
Baseline, the named Flavors (each a raw override mapping, keyed by its
name), and IterationVars. -/
structure RailProject where
  name : String
  commonPaths : List (String × String)
  pathTemplates : List (String × String)
  baseline : Value
  flavors : List (String × Value)
  iterationVars : List (String × List String)

/-- Default path templates of rail.projects.name_utils (documented in the
RailProject configuration docs). -/
def defaultPathTemplates : List (String × String) :=
  [("pipeline_path", "{pipelines_dir}/{pipeline}_{flavor}.yaml"),
   ("ceci_output_dir", "{project_dir}/data/{selection}_{flavor}"),
   ("ceci_file_path", "{tag}_{stage}.{suffix}")]

/-- Default common paths of rail.projects.name_utils (documented in the
RailProject configuration docs); values may reference other CommonPaths
keys. -/
def defaultCommonPaths : List (String × String) :=
  [("root", "."),
   ("scratch_root", "."),
   ("project", ""),
   ("project_dir", "{root}/projects/{project}"),
   ("project_scratch_dir", "{scratch_root}/projects/{project}"),
   ("catalogs_dir", "{root}/catalogs"),
   ("pipelines_dir", "{project_dir}/pipelines")]

/-- Key-wise override of a string mapping: keys of the base keep their
position with overridden values, new keys are appended. -/
def overrideAssoc {α : Type} (base ovr : List (String × α)) : List (String × α) :=
  base.map (fun kv =>
      match alookup ovr kv.1 with
      | some v => (kv.1, v)
      | none => kv)
    ++ ovr.filter (fun kv => (alookup base kv.1).isNone)

/-- Modelled from the spec: materialize the CommonPaths mapping by
resolving every value against the mapping itself (self-referential
resolution to a fixed point, as done by load_config). -/
def materializeCommonPaths (cp : List (String × String)) :
    Except ErrCode (List (String × String)) :=
  mapExcept (fun kv =>
      match resolveTemplate kv.2 cp with
      | .ok r => .ok (kv.1, r)
      | .error e => .error e) cp

/-- Modelled from the spec: get_path looks up the named path template
(project overrides falling back to the system defaults), then resolves it
against the materialized CommonPaths plus the supplied bindings. -/
def getPath (p : RailProject) (templateName : String)
    (kwargs : List (String × String)) : Except ErrCode String :=
  match alookup (overrideAssoc defaultPathTemplates p.pathTemplates) templateName with
  | none => .error .unknownComponent
  | some tmpl =>
      match materializeCommonPaths (overrideAssoc defaultCommonPaths p.commonPaths) with
      | .ok cps => resolveTemplate tmpl (kwargs ++ cps)
      | .error e => .error e

/-- Modelled from the spec: get_flavor deep-merges the Baseline with the
named Flavor overrides and fails with UnknownFlavor for a name that is
not defined. -/
def getFlavor (p : RailProject) (flavorName : String) : Except ErrCode Value :=
  match alookup p.flavors flavorName with
  | some ovr => .ok (deepMerge p.baseline ovr)
  | none => .error .unknownFlavor

/-- Baseline configuration fields of tests/ci_project.yaml. -/
def ciBaselineFields : List (String × Value) :=
  [("catalog_tag", .s "roman_rubin"),
   ("pipelines", .ls ["all"]),
   ("file_aliases", .dict
     [("test", .s "test_file_100k"),
      ("train", .s "train_file_100k"),
      ("train_zCOSMOS", .s "train_file_zCOSMOS_100k"),
      ("wide", .s "wide_file_full"),
      ("deep", .s "deep_file_full"),
      ("spec", .s "spec_file_full")])]

/-- Override fields of the train_cosmos flavor of tests/ci_project.yaml. -/
def ciTrainCosmosOverrides : List (String × Value) :=
  [("pipelines", .ls ["pz", "tomography"]),
   ("file_aliases", .dict
     [("test", .s "test_file_100k"),
      ("train", .s "train_file_zCOSMOS_100k")])]

/-- Override fields of the gpz_gl flavor of tests/ci_project.yaml. -/
def ciGpzGlOverrides : List (String × Value) :=
  [("pipelines", .ls ["pz"]),
   ("pipeline_overrides", .dict
     [("default", .dict
        [("kwargs", .dict [("algorithms", .ls ["gpz"])])]),
      ("inform", .dict
        [("inform_gpz", .dict [("gpz_method", .s "GL")])])])]

/-- The ci_test example project of tests/ci_project.yaml, transcribed
field by field (flavors are keyed by their name attribute). -/
def ciProject : RailProject :=
  { name := "ci_test"
    commonPaths :=
      [("root", "tests/temp_data"),
       ("scratch_root", "{root}"),
       ("catalogs_dir", "{root}/data"),
       ("project", "ci_test"),
       ("sim_version", "v1.1.3")]
    pathTemplates := []
    baseline := .dict ciBaselineFields
    flavors :=
      [("train_cosmos", .dict ciTrainCosmosOverrides),
       ("gpz_gl", .dict ciGpzGlOverrides)]
    iterationVars := [("healpix", ["9924", "9925"])] }

/-- Modelled from the spec: a Pipeline Template
(rail.projects.pipeline_holder.RailPipelineTemplate) — a named pipeline
with its configuration block (pipeline class, catalog template references,
input file templates and default keyword arguments). -/
structure RailPipelineTemplate where
  name : String
  config : Value

/-- Modelled from the spec: a Pipeline Instance
(rail.projects.pipeline_holder.RailPipelineInstance) — a template bound to
one flavor with instance-specific override merges. -/
structure RailPipelineInstance where
  name : String
  path : String
  pipeline_template : String
  flavor : String
  pipeline_overrides : Value

/-- Lookup of a pipeline template by name. -/
def findPipelineTemplate : List RailPipelineTemplate → String → Option RailPipelineTemplate
  | [], _ => none
  | t :: rest, n => if t.name = n then some t else findPipelineTemplate rest n

/-- The pipeline_overrides block of a resolved flavor configuration
(empty when the flavor declares none). -/
def pipelineOverridesOf (flavorConfig : Value) : List (String × Value) :=
  match flavorConfig with
  | .dict fd =>
      match alookup fd "pipeline_overrides" with
      | some (.dict po) => po
      | _ => []
  | _ => []

/-- The list of pipelines enabled under a resolved flavor configuration. -/
def enabledPipelines (flavorConfig : Value) : List String :=
  match flavorConfig with
  | .dict fd =>
      match alookup fd "pipelines" with
      | some (.ls l) => l
      | _ => []
  | _ => []

/-- The override block a flavor holds for the given key, defaulting to an
empty mapping. -/
def getOverride (po : List (String × Value)) (k : String) : Value :=
  (alookup po k).getD (.dict [])

/-- Modelled from the spec: build_pipelines merges, for one pipeline, the
Pipeline-Template defaults, then the flavor default override, then the
flavor pipeline-specific override (deep merge, specific keys winning over
default keys at the same path). -/
def buildPipelineConfig (tmplConfig : Value) (po : List (String × Value))
    (pipeline : String) : Value :=
  deepMerge (deepMerge tmplConfig (getOverride po "default")) (getOverride po pipeline)

/-- Modelled from the spec: build_pipelines resolves the flavor and builds
every pipeline enabled under it from its registered template. -/
def buildPipelines (p : RailProject) (flavorName : String)
    (templates : List RailPipelineTemplate) : Except ErrCode (List (String × Value)) :=
  match getFlavor p flavorName with
  | .error e => .error e
  | .ok fc =>
      mapExcept (fun pname =>
        match findPipelineTemplate templates pname with
        | some t => .ok (pname, buildPipelineConfig t.config (pipelineOverridesOf fc) pname)
        | none => .error .unknownComponent) (enabledPipelines fc)

/-- The inform pipeline template of tests/ci_pipelines.yaml. -/
def informPipelineTemplate : RailPipelineTemplate :=
  { name := "inform"
    config := .dict
      [("pipeline_class", .s "rail.pipelines.estimation.inform_all.InformPipeline"),
       ("input_catalog_template", .s "degraded"),
       ("output_catalog_template", .s "degraded"),
       ("input_file_templates", .dict
         [("input", .dict [("flavor", .s "baseline"), ("tag", .s "train")])]),
       ("kwargs", .dict [("algorithms", .ls ["all"])])] }

/-- The pz pipeline template of tests/ci_pipelines.yaml. -/
def pzPipelineTemplate : RailPipelineTemplate :=
  { name := "pz"
    config := .dict
      [("pipeline_class", .s "rail.pipelines.estimation.pz_all.PzPipeline"),
       ("input_catalog_template", .s "degraded"),
       ("output_catalog_template", .s "degraded"),
       ("input_file_templates", .dict
         [("input_train", .dict [("flavor", .s "baseline"), ("tag", .s "train")]),
          ("input_test", .dict [("flavor", .s "baseline"), ("tag", .s "test")])]),
       ("kwargs", .dict [("algorithms", .ls ["all"])])] }

/-- The tomography pipeline template of tests/ci_pipelines.yaml. -/
def tomographyPipelineTemplate : RailPipelineTemplate :=
  { name := "tomography"
    config := .dict
      [("pipeline_class", .s "rail.pipelines.estimation.tomography.TomographyPipeline"),
       ("input_catalog_template", .s "degraded"),
       ("output_catalog_template", .s "degraded"),
       ("input_file_templates", .dict
         [("truth", .dict [("flavor", .s "baseline"), ("tag", .s "test")])]),
       ("kwargs", .dict
         [("algorithms", .ls ["all"]),
          ("classifiers", .ls ["all"]),
          ("summarizers", .ls ["all"]),
          ("n_tomo_bins", .n 5)])] }

/-- The tomography_baseline pipeline instance of tests/ci_pipelines.yaml. -/
def tomographyBaselineInstance : RailPipelineInstance :=
  { name := "tomography_baseline"
    path := "dummy.yaml"
    pipeline_template := "tomography"
    flavor := "baseline"
    pipeline_overrides := .dict
      [("kwargs", .dict [("algorithms", .ls ["gpz"])])] }

/-- The remaining pipeline templates of tests/ci_pipelines.yaml. -/
def truthToObservedTemplate : RailPipelineTemplate :=
  { name := "truth_to_observed"
    config := .dict
      [("pipeline_class", .s "rail.pipelines.degradation.truth_to_observed.TruthToObservedPipeline"),
       ("input_catalog_template", .s "reduced"),
       ("output_catalog_template", .s "degraded"),
       ("kwargs", .dict
         [("error_models", .ls ["all"]),
          ("selectors", .ls ["all"]),
          ("blending", .b true)])] }

def photometricErrorsTemplate : RailPipelineTemplate :=
  { name := "photometric_errors"
    config := .dict
      [("pipeline_class", .s "rail.pipelines.degradation.apply_phot_errors.ApplyPhotErrorsPipeline"),
       ("input_catalog_template", .s "reduced"),
       ("output_catalog_template", .s "degraded"),
       ("kwargs", .dict [("error_models", .ls ["all"])])] }

def blendingPipelineTemplate : RailPipelineTemplate :=
  { name := "blending"
    config := .dict
      [("input_catalog_template", .s "degraded"),
       ("output_catalog_template", .s "degraded"),
       ("pipeline_class", .s "rail.pipelines.degradation.blending.BlendingPipeline"),
       ("kwargs", .dict [])] }

def specSelectionTemplate : RailPipelineTemplate :=
  { name := "spec_selection"
    config := .dict
      [("input_catalog_template", .s "degraded"),
       ("output_catalog_template", .s "degraded"),
       ("input_catalog_basename", .s "output_dereddener_errors.pq"),
       ("pipeline_class", .s "rail.pipelines.degradation.spectroscopic_selection_pipeline.SpectroscopicSelectionPipeline"),
       ("kwargs", .dict [("selectors", .ls ["all"])])] }

def estimatePipelineTemplate : RailPipelineTemplate :=
  { name := "estimate"
    config := .dict
      [("pipeline_class", .s "rail.pipelines.estimation.estimate_all.EstimatePipeline"),
       ("input_catalog_template", .s "degraded"),
       ("output_catalog_template", .s "degraded"),
       ("input_file_templates", .dict
         [("input", .dict [("flavor", .s "baseline"), ("tag", .s "test")])]),
       ("kwargs", .dict [("algorithms", .ls ["all"])])] }

def evaluatePipelineTemplate : RailPipelineTemplate :=
  { name := "evaluate"
    config := .dict
      [("pipeline_class", .s "rail.pipelines.evaluation.evaluate_all.EvaluationPipeline"),
       ("input_catalog_template", .s "degraded"),
       ("output_catalog_template", .s "degraded"),
       ("input_file_templates", .dict
         [("truth", .dict [("flavor", .s "baseline"), ("tag", .s "test")])]),
       ("kwargs", .dict [("algorithms", .ls ["all"])])] }

/-- The pipeline templates of tests/ci_pipelines.yaml, in file order. -/
def ciPipelineTemplates : List RailPipelineTemplate :=
  [truthToObservedTemplate, photometricErrorsTemplate, blendingPipelineTemplate,
   specSelectionTemplate, informPipelineTemplate, estimatePipelineTemplate,
   evaluatePipelineTemplate, pzPipelineTemplate, tomographyPipelineTemplate]

/-- The resolved gpz_gl flavor configuration of the ci_test project. -/
def gpzGlResolvedFlavor : Value :=
  match getFlavor ciProject "gpz_gl" with
  | .ok v => v
  | .error _ => .null

/-- A tiny project exercising the build_pipelines composition on concrete
input. -/
def miniProject : RailProject :=
  { name := "mini"
    commonPaths := []
    pathTemplates := []
    baseline := .dict [("pipelines", .ls ["p1"])]
    flavors := [("f", .dict [])]
    iterationVars := [] }

/-- Modelled from the spec: a raw registry entry / component — a type tag
(the yaml tag dispatched on by the factory), the unique component name, and
the option mapping; serialization (to_dict) returns exactly this raw
shape, so a component is its own serialized form in the model. -/
structure Component where
  yamlTag : String
  name : String
  options : List (String × Value)

/-- Whether the registry already holds a component with the given name. -/
def hasName : List Component → String → Bool
  | [], _ => false
  | c :: rest, nm => if c.name = nm then true else hasName rest nm

/-- Registry lookup by component name. -/
def getComponent : List Component → String → Option Component
  | [], _ => none
  | c :: rest, nm => if c.name = nm then some c else getComponent rest nm

/-- Modelled from the spec: FactoryMixin.add — fails with
DuplicateComponent when the name exists and replace is false (the registry
value is only produced on success, so a failed add leaves the registry
unchanged); with replace true the existing entry is overwritten in
place. -/
def addComponent (reg : List Component) (c : Component) (replace : Bool) :
    Except ErrCode (List Component) :=
  if hasName reg c.name then
    if replace then .ok (reg.map (fun x => if x.name = c.name then c else x))
    else .error .duplicateComponent
  else .ok (reg ++ [c])

/-- Modelled from the spec: FactoryMixin.load — inserts every raw entry in
order into the registry, never replacing. -/
def loadComponents : List Component → List Component → Except ErrCode (List Component)
  | [], reg => .ok reg
  | c :: rest, reg =>
      match addComponent reg c false with
      | .ok reg2 => loadComponents rest reg2
      | .error e => .error e

/-- Modelled from the spec: FactoryMixin.to_dict serializes the registry
back to the raw list-of-entries shape it was loaded from. -/
def registryToDict (reg : List Component) : List Component := reg

/-- Uniqueness of component names within one category registry. -/
def namesNodup (reg : List Component) : Prop :=
  (reg.map Component.name).Nodup

/-- The value types a Configurable schema can declare. -/
inductive VType where
  | tStr : VType
  | tNat : VType
  | tBool : VType
  | tList : VType
  | tNull : VType
  | tDict : VType
  deriving DecidableEq

/-- The declared type of a raw value. -/
def typeOfV : Value → VType
  | .s _ => .tStr
  | .n _ => .tNat
  | .b _ => .tBool
  | .ls _ => .tList
  | .null => .tNull
  | .dict _ => .tDict

/-- Modelled from the spec: one declared option of a Configurable schema —
name, expected type, whether it is required, and the default used when it
is optional and absent. -/
structure OptionSpec where
  key : String
  vtype : VType
  required : Bool
  defaultValue : Value

/-- Modelled from the spec: whether the raw options violate one declared
option — a present value of the wrong declared type, or an absent required
option. -/
def optionViolated (raw : List (String × Value)) (o : OptionSpec) : Bool :=
  match alookup raw o.key with
  | some v => if typeOfV v = o.vtype then false else true
  | none => o.required

/-- The names of all violated options, in schema order. -/
def violationKeys (schema : List OptionSpec) (raw : List (String × Value)) :
    List String :=
  (schema.filter (optionViolated raw)).map (fun o => o.key)

/-- Modelled from the spec: Configurable construction — validates the raw
options against the declared schema and fails with a single
InvalidConfiguration carrying every violated key; on success it
materializes the option values (declared defaults filling the absent
optional ones). -/
def constructConfigurable (schema : List OptionSpec) (raw : List (String × Value)) :
    Except ErrCode (List (String × Value)) :=
  if violationKeys schema raw = [] then
    .ok (schema.map (fun o => (o.key, (alookup raw o.key).getD o.defaultValue)))
  else .error (.invalidConfiguration (violationKeys schema raw))

/-- A three-option schema with two required options and one typed optional
option, used to exercise the validation on concrete input. -/
def sampleSchema : List OptionSpec :=
  [⟨"name", .tStr, true, .null⟩,
   ⟨"seed", .tNat, true, .null⟩,
   ⟨"cuts", .tDict, false, .dict []⟩]

/-- A raw entry of the Pipelines category: a tagged block that is either a
PipelineTemplate or a PipelineInstance. -/
inductive PipelineEntry where
  | template : RailPipelineTemplate → PipelineEntry
  | inst : RailPipelineInstance → PipelineEntry

/-- The Pipelines category registry: the loaded templates and instances. -/
structure PipelineLibrary where
  templates : List RailPipelineTemplate
  instances : List RailPipelineInstance

/-- Modelled from the spec: loading the Pipelines category dispatches each
tagged block to its constructor; a PipelineInstance must name a
PipelineTemplate already registered under the same category, otherwise the
load fails with UnknownComponent. -/
def loadPipelineEntries : List PipelineEntry → PipelineLibrary → Except ErrCode PipelineLibrary
  | [], lib => .ok lib
  | .template t :: rest, lib =>
      loadPipelineEntries rest ⟨lib.templates ++ [t], lib.instances⟩
  | .inst i :: rest, lib =>
      match findPipelineTemplate lib.templates i.pipeline_template with
      | some _ => loadPipelineEntries rest ⟨lib.templates, lib.instances ++ [i]⟩
      | none => .error .unknownComponent

/-- Modelled from the spec: resolving a PipelineInstance applies its
pipeline_overrides on top of the named template configuration; an instance
whose pipeline_template names no registered template cannot be
resolved. -/
def resolveInstance (ts : List RailPipelineTemplate) (i : RailPipelineInstance) :
    Except ErrCode Value :=
  match findPipelineTemplate ts i.pipeline_template with
  | some t => .ok (deepMerge t.config i.pipeline_overrides)
  | none => .error .unknownComponent

/-- The Pipelines category of tests/ci_pipelines.yaml, in file order. -/
def ciPipelineEntries : List PipelineEntry :=
  [.template truthToObservedTemplate, .template photometricErrorsTemplate,
   .template blendingPipelineTemplate, .template specSelectionTemplate,
   .template informPipelineTemplate, .template estimatePipelineTemplate,
   .template evaluatePipelineTemplate, .template pzPipelineTemplate,
   .template tomographyPipelineTemplate, .inst tomographyBaselineInstance]

theorem deepMerge_dict (a bb : List (String × Value)) :
    deepMerge (.dict a) (.dict bb) = .dict (mergeFields a bb) := by
  rw [deepMerge]
  have h : (a.attach.map (fun kv =>
      match alookup bb kv.1.1 with
      | some w => (kv.1.1, deepMerge kv.1.2 w)
      | none => kv.1)) = a.attach.map (fun kv => mergeEntry bb kv.1) := rfl
  rw [mergeFields, h, List.attach_map_coe]

theorem deepMerge_of_not_isDict_left {x : Value} (y : Value) (h : x.isDict = false) :
    deepMerge x y = y := by
  cases x <;> cases y <;> simp_all [deepMerge, Value.isDict]

theorem deepMerge_of_not_isDict_right (x : Value) {y : Value} (h : y.isDict = false) :
    deepMerge x y = y := by
  cases x <;> cases y <;> simp_all [deepMerge, Value.isDict]

theorem alookup_append {α : Type} (l1 l2 : List (String × α)) (k : String) :
    alookup (l1 ++ l2) k =
      match alookup l1 k with
      | some v => some v
      | none => alookup l2 k := by
  induction l1 with
  | nil => simp [alookup]
  | cons kv rest ih =>
      rcases kv with ⟨k2, v⟩
      by_cases hk : k2 = k <;> simp [alookup, hk, ih]

theorem alookup_map_mergeEntry (a : List (String × Value))
    (bb : List (String × Value)) (k : String) :
    alookup (a.map (mergeEntry bb)) k =
      (alookup a k).map (fun v =>
        match alookup bb k with
        | some w => deepMerge v w
        | none => v) := by
  induction a with
  | nil => simp [alookup]
  | cons kv rest ih =>
      rcases kv with ⟨k2, v⟩
      by_cases hk : k2 = k
      · subst hk
        simp only [List.map_cons, mergeEntry, alookup]
        cases alookup bb k2 <;> simp [alookup]
      · simp only [List.map_cons, mergeEntry]
        cases hbb : alookup bb k2 <;> simp [alookup, hk, ih]

theorem alookup_filter_not_mem (bb a : List (String × Value)) (k : String)
    (h : alookup a k = none) :
    alookup (bb.filter (fun kv => (alookup a kv.1).isNone)) k = alookup bb k := by
  induction bb with
  | nil => simp
  | cons kv rest ih =>
      rcases kv with ⟨k2, w⟩
      by_cases hk : k2 = k
      · subst hk
        simp [List.filter, alookup, h, ih]
      · cases ha : alookup a k2 <;>
          simp [List.filter, alookup, hk, ih, ha]

/-- Key-wise characterisation of the merge of two mappings: a key present
on both sides is merged recursively, a key present on one side only is
taken from that side. -/
theorem alookup_mergeFields (a bb : List (String × Value)) (k : String) :
    alookup (mergeFields a bb) k =
      match alookup a k, alookup bb k with
      | some v, some w => some (deepMerge v w)
      | some v, none => some v
      | none, some w => some w
      | none, none => none := by
  rw [mergeFields, alookup_append, alookup_map_mergeEntry]
  cases ha : alookup a k with
  | some v => cases alookup bb k <;> rfl
  | none =>
      rw [alookup_filter_not_mem bb a k ha]
      cases alookup bb k <;> rfl

/-- Override precedence of the deep merge along any key path: a
non-mapping value contributed by the override side is found unchanged in
the merged result at the same key path, whatever the base holds there. -/
theorem lookupPath_deepMerge_override :
    ∀ (path : List String) (x : Value) (sf : List (String × Value)) (w : Value),
      lookupPath (.dict sf) path = some w →
      w.isDict = false →
      lookupPath (deepMerge x (.dict sf)) path = some w := by
  intro path
  induction path with
  | nil =>
      intro x sf w hlook hw
      simp [lookupPath] at hlook
      rw [← hlook] at hw
      simp [Value.isDict] at hw
  | cons k rest ih =>
      intro x sf w hlook hw
      simp only [lookupPath] at hlook
      cases hs : alookup sf k with
      | none =>
          rw [hs] at hlook
          exact absurd (show (none : Option Value) = some w from hlook) (by simp)
      | some v =>
          rw [hs] at hlook
          replace hlook : lookupPath v rest = some w := hlook
          cases hx : x.isDict with
          | false => rw [deepMerge_of_not_isDict_left _ hx]; simp [lookupPath, hs, hlook]
          | true =>
              cases x with
              | dict a =>
                  rw [deepMerge_dict]
                  simp only [lookupPath, alookup_mergeFields, hs]
                  cases ha : alookup a k with
                  | none => exact hlook
                  | some v2 =>
                      cases rest with
                      | nil =>
                          simp [lookupPath] at hlook
                          subst hlook
                          simp [lookupPath, deepMerge_of_not_isDict_right v2 hw]
                      | cons k2 r2 =>
                          cases v with
                          | dict s2 => exact ih v2 s2 w hlook hw
                          | s str => exact absurd hlook (by simp [lookupPath])
                          | n m => exact absurd hlook (by simp [lookupPath])
                          | b bv => exact absurd hlook (by simp [lookupPath])
                          | ls l => exact absurd hlook (by simp [lookupPath])
                          | null => exact absurd hlook (by simp [lookupPath])
              | s str => simp [Value.isDict] at hx
              | n m => simp [Value.isDict] at hx
              | b bv => simp [Value.isDict] at hx
              | ls l => simp [Value.isDict] at hx
              | null => simp [Value.isDict] at hx

theorem length_iterCombos (ivs : List (String × List String)) :
    (iterCombos ivs).length = prodLens ivs := by
  induction ivs with
  | nil => rfl
  | cons kv rest ih =>
      rcases kv with ⟨k, vs⟩
      simp [iterCombos, prodLens, ih, Function.comp]
      induction vs with
      | nil => simp
      | cons v vtail ihv =>
          simp [ihv, ih]
          ring

theorem length_mapExcept {α β : Type} (f : α → Except ErrCode β) :
    ∀ (l : List α) (ys : List β), mapExcept f l = .ok ys → ys.length = l.length := by
  intro l
  induction l with
  | nil => intro ys h; simp [mapExcept] at h; simp [← h]
  | cons x xs ih =>
      intro ys h
      simp only [mapExcept] at h
      cases hf : f x with
      | error e => rw [hf] at h; exact absurd h (by simp)
      | ok y =>
          rw [hf] at h
          cases hm : mapExcept f xs with
          | error e => rw [hm] at h; exact absurd h (by simp)
          | ok ys2 =>
              rw [hm] at h
              cases h
              simp [ih ys2 hm]

theorem resolveNestedAux_ok_no_placeholder :
    ∀ (fuel : Nat) (t : String) (bnd : List (String × String)) (r : String),
      resolveNestedAux fuel t bnd = .ok r → hasPlaceholder r = false := by
  intro fuel
  induction fuel with
  | zero => intro t bnd r h; exact absurd h (by simp [resolveNestedAux])
  | succ n ih =>
      intro t bnd r h
      simp only [resolveNestedAux] at h
      by_cases hp : hasPlaceholder t
      · rw [if_pos hp] at h
        cases hi : interpolate t bnd with
        | ok t2 => rw [hi] at h; exact ih t2 bnd r h
        | error e => rw [hi] at h; exact absurd h (by simp)
      · rw [if_neg hp] at h
        cases h
        exact Bool.of_not_eq_true hp

theorem renderToks_missing (bnd : List (String × String)) :
    ∀ toks : List Tok,
      (∃ k, Tok.var k ∈ toks ∧ alookup bnd k = none) →
      ∃ k2, Tok.var k2 ∈ toks ∧ alookup bnd k2 = none ∧
        renderToks bnd toks = .error (.missingInterpolant k2) := by
  intro toks
  induction toks with
  | nil => rintro ⟨k, hk, _⟩; simp at hk
  | cons t rest ih =>
      rintro ⟨k, hk, hnone⟩
      cases t with
      | lit lt =>
          have hkr : Tok.var k ∈ rest := by
            rcases List.mem_cons.mp hk with h1 | h1
            · exact absurd h1 (by simp)
            · exact h1
          obtain ⟨k2, hk2, hn2, hr2⟩ := ih ⟨k, hkr, hnone⟩
          exact ⟨k2, List.mem_cons_of_mem _ hk2, hn2, by simp [renderToks, hr2]⟩
      | var k0 =>
          cases h0 : alookup bnd k0 with
          | none => exact ⟨k0, List.mem_cons_self _ _, h0, by simp [renderToks, h0]⟩
          | some v =>
              have hkr : Tok.var k ∈ rest := by
                rcases List.mem_cons.mp hk with h1 | h1
                · cases h1; rw [h0] at hnone; exact absurd hnone (by simp)
                · exact h1
              obtain ⟨k2, hk2, hn2, hr2⟩ := ih ⟨k, hkr, hnone⟩
              exact ⟨k2, List.mem_cons_of_mem _ hk2, hn2, by simp [renderToks, h0, hr2]⟩

@[simp] theorem deepMerge_s_right (x : Value) (t : String) :
    deepMerge x (.s t) = .s t := deepMerge_of_not_isDict_right x rfl

@[simp] theorem deepMerge_n_right (x : Value) (m : Nat) :
    deepMerge x (.n m) = .n m := deepMerge_of_not_isDict_right x rfl

@[simp] theorem deepMerge_b_right (x : Value) (bv : Bool) :
    deepMerge x (.b bv) = .b bv := deepMerge_of_not_isDict_right x rfl

@[simp] theorem deepMerge_ls_right (x : Value) (l : List String) :
    deepMerge x (.ls l) = .ls l := deepMerge_of_not_isDict_right x rfl

@[simp] theorem deepMerge_null_right (x : Value) :
    deepMerge x .null = .null := deepMerge_of_not_isDict_right x rfl

/-- Claim C2: for every flavor name defined in a loaded project,
get_flavor returns the merge of the Baseline with that Flavor overrides:
every attribute the Flavor does not explicitly set has exactly the
Baseline value, every attribute it sets with a scalar or list value has
the Flavor value wholesale; get_flavor fails with UnknownFlavor for an
undefined name.  The concrete conjunct evaluates the train_cosmos flavor
of tests/ci_project.yaml. -/
theorem claim_C2_flavor_inheritance :
    (∀ (p : RailProject) (fn : String) (bd ovrD : List (String × Value)),
        p.baseline = .dict bd →
        alookup p.flavors fn = some (.dict ovrD) →
        getFlavor p fn = .ok (.dict (mergeFields bd ovrD)) ∧
          (∀ k, alookup ovrD k = none →
            alookup (mergeFields bd ovrD) k = alookup bd k) ∧
          (∀ k w, alookup ovrD k = some w → w.isDict = false →
            alookup (mergeFields bd ovrD) k = some w))
    ∧ (∀ (p : RailProject) (fn : String),
        alookup p.flavors fn = none → getFlavor p fn = .error .unknownFlavor)
    ∧ getFlavor ciProject "train_cosmos" = .ok (.dict
        [("catalog_tag", .s "roman_rubin"),
         ("pipelines", .ls ["pz", "tomography"]),
         ("file_aliases", .dict
           [("test", .s "test_file_100k"),
            ("train", .s "train_file_zCOSMOS_100k"),
            ("train_zCOSMOS", .s "train_file_zCOSMOS_100k"),
            ("wide", .s "wide_file_full"),
            ("deep", .s "deep_file_full"),
            ("spec", .s "spec_file_full")])]) := by
  refine ⟨?_, ?_, ?_⟩
  · intro p fn bd ovrD hbase hflav
    refine ⟨by simp [getFlavor, hflav, hbase, deepMerge_dict], ?_, ?_⟩
    · intro k hk
      rw [alookup_mergeFields, hk]
      cases alookup bd k <;> rfl
    · intro k w hk hw
      rw [alookup_mergeFields, hk]
      cases alookup bd k with
      | none => rfl
      | some v => simp [deepMerge_of_not_isDict_right v hw]
  · intro p fn h
    simp [getFlavor, h]
  · simp [getFlavor, ciProject, ciBaselineFields, ciTrainCosmosOverrides, alookup,
      deepMerge_dict, mergeFields, mergeEntry, List.filter]

theorem claim_C2_flavor_inheritance_witness :
    getFlavor ciProject "train_cosmos"
      = .ok (.dict (mergeFields ciBaselineFields ciTrainCosmosOverrides))
    ∧ alookup (mergeFields ciBaselineFields ciTrainCosmosOverrides) "catalog_tag"
      = alookup ciBaselineFields "catalog_tag"
    ∧ alookup (mergeFields ciBaselineFields ciTrainCosmosOverrides) "pipelines"
      = some (.ls ["pz", "tomography"])
    ∧ getFlavor ciProject "undefined_flavor" = .error .unknownFlavor :=
  ⟨(claim_C2_flavor_inheritance.1 ciProject "train_cosmos"
      ciBaselineFields ciTrainCosmosOverrides rfl rfl).1,
   (claim_C2_flavor_inheritance.1 ciProject "train_cosmos"
      ciBaselineFields ciTrainCosmosOverrides rfl rfl).2.1 "catalog_tag" rfl,
   (claim_C2_flavor_inheritance.1 ciProject "train_cosmos"
      ciBaselineFields ciTrainCosmosOverrides rfl rfl).2.2 "pipelines"
      (.ls ["pz", "tomography"]) rfl rfl,
   claim_C2_flavor_inheritance.2.1 ciProject "undefined_flavor" rfl⟩

/-- Claim C3: after loading the ci_test example project, get_path with
template pipeline_path and bindings pipeline=pz, flavor=baseline returns
exactly the fully-expanded string with no remaining placeholders, the
default template resolved through the transitive CommonPaths chain
pipelines_dir to project_dir to root/project. -/
theorem claim_C3_get_path_end_to_end :
    getPath ciProject "pipeline_path" [("pipeline", "pz"), ("flavor", "baseline")]
      = .ok "tests/temp_data/projects/ci_test/pipelines/pz_baseline.yaml"
    ∧ hasPlaceholder "tests/temp_data/projects/ci_test/pipelines/pz_baseline.yaml" = false :=
  ⟨rfl, rfl⟩

/-- Claim C4: resolving a template over non-empty iteration variables
yields one fully-resolved path per cross-product combination, in
declaration and sequence order, with a cardinality-one product still
producing a one-element sequence; concretely, iteration over
healpix=[3433, 3344] yields the two paths in input order. -/
theorem claim_C4_iteration_expansion :
    (∀ (tmpl : String) (bnd : List (String × String))
        (ivs : List (String × List String)) (ys : List String),
        ivs ≠ [] →
        resolveIter tmpl bnd ivs = .ok ys →
        ys.length = prodLens ivs)
    ∧ resolveIter "a/{healpix}/data.pq" [] [("healpix", ["3433", "3344"])]
        = .ok ["a/3433/data.pq", "a/3344/data.pq"]
    ∧ resolveIter "a/{healpix}/data.pq" [] [("healpix", ["9924"])]
        = .ok ["a/9924/data.pq"] := by
  refine ⟨?_, rfl, rfl⟩
  intro tmpl bnd ivs ys _ h
  rw [length_mapExcept _ _ _ h, length_iterCombos]

theorem claim_C4_iteration_expansion_witness :
    ([("healpix", ["3433", "3344"])] : List (String × List String)) ≠ []
    ∧ (["a/3433/data.pq", "a/3344/data.pq"] : List String).length
        = prodLens [("healpix", ["3433", "3344"])] :=
  ⟨by simp,
   claim_C4_iteration_expansion.1 "a/{healpix}/data.pq" []
     [("healpix", ["3433", "3344"])] ["a/3433/data.pq", "a/3344/data.pq"]
     (by simp) rfl⟩

/-- Claim C5: nested template resolution is bounded by a fixed maximum
iteration count and terminates on every input; a successful result never
retains an unresolved placeholder (nothing incompletely resolved), cyclic
binding definitions fail with CyclicTemplateError, and acyclic transitive
chains are expanded to their fixed point. -/
theorem claim_C5_resolution_terminates :
    (∀ (tmpl : String) (bnd : List (String × String)) (r : String),
        resolveTemplate tmpl bnd = .ok r → hasPlaceholder r = false)
    ∧ (∀ (fuel : Nat) (t : String) (bnd : List (String × String)) (r : String),
        resolveNestedAux fuel t bnd = .ok r → hasPlaceholder r = false)
    ∧ resolveTemplate "{a}" [("a", "{b}"), ("b", "{a}")] = .error .cyclicTemplate
    ∧ resolveTemplate "{pipelines_dir}" (overrideAssoc defaultCommonPaths ciProject.commonPaths)
        = .ok "tests/temp_data/projects/ci_test/pipelines" :=
  ⟨fun tmpl bnd r h => resolveNestedAux_ok_no_placeholder maxIterations tmpl bnd r h,
   resolveNestedAux_ok_no_placeholder, rfl, rfl⟩

theorem claim_C5_resolution_terminates_witness :
    hasPlaceholder "tests/temp_data/projects/ci_test/pipelines" = false :=
  claim_C5_resolution_terminates.1 "{pipelines_dir}"
    (overrideAssoc defaultCommonPaths ciProject.commonPaths)
    "tests/temp_data/projects/ci_test/pipelines"
    claim_C5_resolution_terminates.2.2.2

/-- Claim C6: a template with a placeholder for which the bindings supply
no value resolves to a MissingInterpolant failure naming an unbound
placeholder of the template, never to a string with the placeholder left
in place; concretely, resolving a/{flavor}/x against empty bindings fails
with MissingInterpolant naming flavor. -/
theorem claim_C6_missing_interpolant :
    (∀ (tmpl : String) (bnd : List (String × String)),
        (∃ k, Tok.var k ∈ parseTemplate tmpl ∧ alookup bnd k = none) →
        ∃ k2, Tok.var k2 ∈ parseTemplate tmpl ∧ alookup bnd k2 = none ∧
          resolveTemplate tmpl bnd = .error (.missingInterpolant k2))
    ∧ resolveTemplate "a/{flavor}/x" [] = .error (.missingInterpolant "flavor") := by
  refine ⟨?_, rfl⟩
  intro tmpl bnd h
  obtain ⟨k2, hmem, hnone, hrend⟩ := renderToks_missing bnd (parseTemplate tmpl) h
  have hp : hasPlaceholder tmpl = true := by
    obtain ⟨k, hk, _⟩ := h
    exact List.any_eq_true.mpr ⟨Tok.var k, hk, rfl⟩
  have hi : interpolate tmpl bnd = .error (.missingInterpolant k2) := hrend
  refine ⟨k2, hmem, hnone, ?_⟩
  show resolveNestedAux maxIterations tmpl bnd = _
  rw [show maxIterations = 19 + 1 from rfl]
  simp [resolveNestedAux, hp, hi]

theorem claim_C6_missing_interpolant_witness :
    ∃ k2, Tok.var k2 ∈ parseTemplate "a/{flavor}/x"
      ∧ alookup ([] : List (String × String)) k2 = none
      ∧ resolveTemplate "a/{flavor}/x" [] = .error (.missingInterpolant k2) :=
  claim_C6_missing_interpolant.1 "a/{flavor}/x" []
    ⟨"flavor", by decide, rfl⟩

theorem mapExcept_mem {α β : Type} (f : α → Except ErrCode β) :
    ∀ (l : List α) (ys : List β), mapExcept f l = .ok ys →
      ∀ y ∈ ys, ∃ x ∈ l, f x = .ok y := by
  intro l
  induction l with
  | nil =>
      intro ys h y hy
      simp [mapExcept] at h
      subst h
      simp at hy
  | cons x xs ih =>
      intro ys h y hy
      simp only [mapExcept] at h
      cases hf : f x with
      | error e => rw [hf] at h; exact absurd h (by simp)
      | ok y2 =>
          rw [hf] at h
          cases hm : mapExcept f xs with
          | error e => rw [hm] at h; exact absurd h (by simp)
          | ok ys2 =>
              rw [hm] at h
              cases h
              rcases List.mem_cons.mp hy with h1 | h1
              · exact ⟨x, List.mem_cons_self _ _, by rw [hf, h1]⟩
              · obtain ⟨x2, hx2, hfx2⟩ := ih ys2 hm y h1
                exact ⟨x2, List.mem_cons_of_mem _ hx2, hfx2⟩

/-- Claim C1: build_pipelines gives every enabled pipeline the
configuration obtained by deep-merging the Pipeline-Template defaults,
the flavor default override and the flavor pipeline-specific override; at
any key path the pipeline-specific override wins with its value taken
wholesale when it is a scalar or list; concretely, for the gpz_gl flavor
the built inform configuration carries both algorithms=[gpz] (from the
default override) and gpz_method=GL (from the inform-specific
override). -/
theorem claim_C1_override_precedence :
    (∀ (p : RailProject) (fn : String) (templates : List RailPipelineTemplate)
        (res : List (String × Value)) (pname : String) (cfg : Value)
        (fc : Value) (t : RailPipelineTemplate),
        buildPipelines p fn templates = .ok res →
        getFlavor p fn = .ok fc →
        (pname, cfg) ∈ res →
        findPipelineTemplate templates pname = some t →
        cfg = buildPipelineConfig t.config (pipelineOverridesOf fc) pname)
    ∧ (∀ (tmplConfig : Value) (po : List (String × Value)) (pname : String)
        (sf : List (String × Value)) (path : List String) (w : Value),
        alookup po pname = some (.dict sf) →
        lookupPath (.dict sf) path = some w →
        w.isDict = false →
        lookupPath (buildPipelineConfig tmplConfig po pname) path = some w)
    ∧ lookupPath (buildPipelineConfig informPipelineTemplate.config
        (pipelineOverridesOf gpzGlResolvedFlavor) "inform") ["kwargs", "algorithms"]
        = some (.ls ["gpz"])
    ∧ lookupPath (buildPipelineConfig informPipelineTemplate.config
        (pipelineOverridesOf gpzGlResolvedFlavor) "inform") ["inform_gpz", "gpz_method"]
        = some (.s "GL") := by
  refine ⟨?_, ?_, ?_, ?_⟩
  · intro p fn templates res pname cfg fc t hbuild hgf hmem hft
    simp only [buildPipelines, hgf] at hbuild
    obtain ⟨x, _, hfx⟩ := mapExcept_mem _ _ _ hbuild (pname, cfg) hmem
    cases hftx : findPipelineTemplate templates x with
    | none => rw [hftx] at hfx; exact absurd hfx (by simp)
    | some tx =>
        rw [hftx] at hfx
        have hx : x = pname ∧
            buildPipelineConfig tx.config (pipelineOverridesOf fc) x = cfg := by
          have := hfx
          simp at this
          exact ⟨this.1, this.2⟩
        obtain ⟨hx1, hx2⟩ := hx
        subst hx1
        rw [hftx] at hft
        cases hft
        exact hx2.symm
  · intro tmplConfig po pname sf path w hpo hlook hw
    have : getOverride po pname = .dict sf := by simp [getOverride, hpo]
    rw [buildPipelineConfig, this]
    exact lookupPath_deepMerge_override path _ sf w hlook hw
  · simp [buildPipelineConfig, getOverride, pipelineOverridesOf, gpzGlResolvedFlavor,
      getFlavor, ciProject, ciBaselineFields, ciGpzGlOverrides, informPipelineTemplate,
      alookup, deepMerge_dict, mergeFields, mergeEntry, lookupPath, List.filter]
  · simp [buildPipelineConfig, getOverride, pipelineOverridesOf, gpzGlResolvedFlavor,
      getFlavor, ciProject, ciBaselineFields, ciGpzGlOverrides, informPipelineTemplate,
      alookup, deepMerge_dict, mergeFields, mergeEntry, lookupPath, List.filter]

theorem claim_C1_override_precedence_witness :
    (Value.dict []) = buildPipelineConfig
        (RailPipelineTemplate.mk "p1" (.dict [])).config
        (pipelineOverridesOf (.dict [("pipelines", .ls ["p1"])])) "p1"
    ∧ lookupPath (buildPipelineConfig (.dict []) [("pz", .dict [("k", .n 1)])] "pz")
        ["k"] = some (.n 1) :=
  ⟨claim_C1_override_precedence.1 miniProject "f" [⟨"p1", .dict []⟩]
      [("p1", .dict [])] "p1" (.dict [])
      (.dict [("pipelines", .ls ["p1"])]) ⟨"p1", .dict []⟩
      (by simp [buildPipelines, getFlavor, miniProject, alookup, deepMerge_dict,
        mergeFields, mergeEntry, enabledPipelines, mapExcept, findPipelineTemplate,
        buildPipelineConfig, getOverride, pipelineOverridesOf])
      (by simp [getFlavor, miniProject, alookup, deepMerge_dict, mergeFields, mergeEntry])
      (by simp)
      (by simp [findPipelineTemplate]),
   claim_C1_override_precedence.2.1 (.dict []) [("pz", .dict [("k", .n 1)])] "pz"
      [("k", .n 1)] ["k"] (.n 1) rfl rfl rfl⟩

theorem hasName_iff_mem (reg : List Component) (nm : String) :
    hasName reg nm = true ↔ nm ∈ reg.map Component.name := by
  induction reg with
  | nil => simp [hasName]
  | cons c rest ih =>
      by_cases h : c.name = nm
      · simp [hasName, h]
      · simp [hasName, h, ih]
        intro heq
        exact absurd heq.symm h

theorem addComponent_names_nodup (reg : List Component) (c : Component)
    (repl : Bool) (reg2 : List Component) (h : addComponent reg c repl = .ok reg2)
    (hnd : namesNodup reg) : namesNodup reg2 := by
  simp only [addComponent] at h
  by_cases hh : hasName reg c.name
  · rw [if_pos hh] at h
    cases repl with
    | false => simp at h
    | true =>
        simp only [if_true] at h
        cases h
        have hnames : (reg.map (fun x => if x.name = c.name then c else x)).map
            Component.name = reg.map Component.name := by
          rw [List.map_map]
          apply List.map_congr_left
          intro x _
          by_cases hx : x.name = c.name <;> simp [hx]
        unfold namesNodup
        rw [hnames]
        exact hnd
  · rw [if_neg hh] at h
    cases h
    unfold namesNodup
    rw [List.map_append]
    simp only [List.map_cons, List.map_nil]
    rw [List.nodup_append]
    refine ⟨hnd, by simp, ?_⟩
    intro a ha
    simp only [List.mem_singleton]
    intro hc
    subst hc
    exact hh ((hasName_iff_mem reg c.name).mpr ha)

theorem loadComponents_nodup :
    ∀ (entries reg res : List Component),
      loadComponents entries reg = .ok res → namesNodup reg → namesNodup res := by
  intro entries
  induction entries with
  | nil =>
      intro reg res h hnd
      simp [loadComponents] at h
      subst h
      exact hnd
  | cons c rest ih =>
      intro reg res h hnd
      simp only [loadComponents] at h
      cases ha : addComponent reg c false with
      | error e => rw [ha] at h; exact absurd h (by simp)
      | ok reg2 =>
          rw [ha] at h
          exact ih reg2 res h (addComponent_names_nodup reg c false reg2 ha hnd)

theorem loadComponents_self :
    ∀ (rest acc : List Component), namesNodup (acc ++ rest) →
      loadComponents rest acc = .ok (acc ++ rest) := by
  intro rest
  induction rest with
  | nil => intro acc _; simp [loadComponents]
  | cons c tail ih =>
      intro acc hnd
      have hno : hasName acc c.name = false := by
        rw [← Bool.not_eq_true, hasName_iff_mem]
        intro hmem
        unfold namesNodup at hnd
        rw [List.map_append, List.nodup_append] at hnd
        exact hnd.2.2 hmem (by simp)
      simp only [loadComponents, addComponent, hno, Bool.false_eq_true, if_false]
      have : (acc ++ [c]) ++ tail = acc ++ c :: tail := by simp
      rw [← this] at hnd ⊢
      exact ih (acc ++ [c]) hnd

/-- Claim C7: the registry serialization round-trips — for every registry
state reachable by a successful load, reloading its to_dict serialization
into a freshly reset registry reproduces the same registry (hence the
same names and, entry by entry, the same serialized components). -/
theorem claim_C7_registry_roundtrip :
    ∀ (entries reg : List Component),
      loadComponents entries [] = .ok reg →
      loadComponents (registryToDict reg) [] = .ok reg := by
  intro entries reg h
  have hnd : namesNodup reg :=
    loadComponents_nodup entries [] reg h (by simp [namesNodup])
  have h2 := loadComponents_self reg [] (by simpa using hnd)
  simpa [registryToDict] using h2

theorem claim_C7_registry_roundtrip_witness :
    loadComponents (registryToDict
        [⟨"FileTemplate", "t1", [("path_template", .s "a/{flavor}/x")]⟩,
         ⟨"FileInstance", "t2", [("path", .s "b.hdf5")]⟩]) []
      = .ok
        [⟨"FileTemplate", "t1", [("path_template", .s "a/{flavor}/x")]⟩,
         ⟨"FileInstance", "t2", [("path", .s "b.hdf5")]⟩] :=
  claim_C7_registry_roundtrip
    [⟨"FileTemplate", "t1", [("path_template", .s "a/{flavor}/x")]⟩,
     ⟨"FileInstance", "t2", [("path", .s "b.hdf5")]⟩]
    [⟨"FileTemplate", "t1", [("path_template", .s "a/{flavor}/x")]⟩,
     ⟨"FileInstance", "t2", [("path", .s "b.hdf5")]⟩]
    rfl

theorem getComponent_replace (reg : List Component) (c : Component)
    (h : hasName reg c.name = true) :
    getComponent (reg.map (fun x => if x.name = c.name then c else x)) c.name
      = some c := by
  induction reg with
  | nil => simp [hasName] at h
  | cons x rest ih =>
      by_cases hx : x.name = c.name
      · simp [getComponent, hx]
      · have hr : hasName rest c.name = true := by
          simpa [hasName, hx] using h
        simp [getComponent, hx, ih hr]

/-- Claim C8: adding a component whose name is already registered fails
with DuplicateComponent when replace is false (the registry is only
produced on success, so it is unchanged), succeeds when replace is true
with a subsequent get returning the new component, and a successful add
preserves the uniqueness of names within the category. -/
theorem claim_C8_duplicate_rejection :
    (∀ (reg : List Component) (c : Component),
        hasName reg c.name = true →
        addComponent reg c false = .error .duplicateComponent)
    ∧ (∀ (reg : List Component) (c : Component),
        hasName reg c.name = true →
        addComponent reg c true
            = .ok (reg.map (fun x => if x.name = c.name then c else x))
          ∧ getComponent (reg.map (fun x => if x.name = c.name then c else x)) c.name
            = some c)
    ∧ (∀ (reg : List Component) (c : Component) (repl : Bool) (reg2 : List Component),
        addComponent reg c repl = .ok reg2 → namesNodup reg → namesNodup reg2) := by
  refine ⟨?_, ?_, addComponent_names_nodup⟩
  · intro reg c h
    simp [addComponent, h]
  · intro reg c h
    exact ⟨by simp [addComponent, h], getComponent_replace reg c h⟩

theorem claim_C8_duplicate_rejection_witness :
    addComponent [⟨"Tag", "a", []⟩] ⟨"Tag", "a", [("x", .n 1)]⟩ false
      = .error .duplicateComponent
    ∧ addComponent [⟨"Tag", "a", []⟩] ⟨"Tag", "a", [("x", .n 1)]⟩ true
      = .ok [⟨"Tag", "a", [("x", .n 1)]⟩]
    ∧ getComponent [⟨"Tag", "a", [("x", .n 1)]⟩] "a" = some ⟨"Tag", "a", [("x", .n 1)]⟩
    ∧ namesNodup [⟨"Tag", "a", []⟩, ⟨"Tag", "b", []⟩] :=
  ⟨claim_C8_duplicate_rejection.1 [⟨"Tag", "a", []⟩] ⟨"Tag", "a", [("x", .n 1)]⟩ rfl,
   (claim_C8_duplicate_rejection.2.1 [⟨"Tag", "a", []⟩] ⟨"Tag", "a", [("x", .n 1)]⟩ rfl).1,
   (claim_C8_duplicate_rejection.2.1 [⟨"Tag", "a", []⟩] ⟨"Tag", "a", [("x", .n 1)]⟩ rfl).2,
   claim_C8_duplicate_rejection.2.2 [⟨"Tag", "a", []⟩] ⟨"Tag", "b", []⟩ false
     [⟨"Tag", "a", []⟩, ⟨"Tag", "b", []⟩] rfl (by simp [namesNodup])⟩

/-- Claim C9: a Configurable constructed from raw options that violate the
schema in several ways fails with a single InvalidConfiguration error
listing every violated key (every violated option of the schema
contributes its key, and only violated options do), not only the first
violation encountered. -/
theorem claim_C9_invalid_configuration_lists_all :
    (∀ (schema : List OptionSpec) (raw : List (String × Value)),
        violationKeys schema raw ≠ [] →
        constructConfigurable schema raw
          = .error (.invalidConfiguration (violationKeys schema raw)))
    ∧ (∀ (schema : List OptionSpec) (raw : List (String × Value)) (o : OptionSpec),
        o ∈ schema → optionViolated raw o = true →
        o.key ∈ violationKeys schema raw)
    ∧ (∀ (schema : List OptionSpec) (raw : List (String × Value)) (k : String),
        k ∈ violationKeys schema raw →
        ∃ o ∈ schema, o.key = k ∧ optionViolated raw o = true) := by
  refine ⟨?_, ?_, ?_⟩
  · intro schema raw h
    simp [constructConfigurable, h]
  · intro schema raw o hmem hviol
    unfold violationKeys
    exact List.mem_map_of_mem _ (List.mem_filter.mpr ⟨hmem, hviol⟩)
  · intro schema raw k hk
    unfold violationKeys at hk
    obtain ⟨o, ho, hko⟩ := List.mem_map.mp hk
    exact ⟨o, (List.mem_filter.mp ho).1, hko, (List.mem_filter.mp ho).2⟩

theorem claim_C9_invalid_configuration_lists_all_witness :
    constructConfigurable sampleSchema [("cuts", .s "oops")]
      = .error (.invalidConfiguration ["name", "seed", "cuts"])
    ∧ "name" ∈ violationKeys sampleSchema [("cuts", .s "oops")]
    ∧ "seed" ∈ violationKeys sampleSchema [("cuts", .s "oops")]
    ∧ "cuts" ∈ violationKeys sampleSchema [("cuts", .s "oops")] :=
  ⟨claim_C9_invalid_configuration_lists_all.1 sampleSchema [("cuts", .s "oops")]
     (by simp [violationKeys, sampleSchema, optionViolated, alookup, List.filter]),
   claim_C9_invalid_configuration_lists_all.2.1 sampleSchema [("cuts", .s "oops")]
     ⟨"name", .tStr, true, .null⟩ (by simp [sampleSchema]) rfl,
   claim_C9_invalid_configuration_lists_all.2.1 sampleSchema [("cuts", .s "oops")]
     ⟨"seed", .tNat, true, .null⟩ (by simp [sampleSchema]) rfl,
   claim_C9_invalid_configuration_lists_all.2.1 sampleSchema [("cuts", .s "oops")]
     ⟨"cuts", .tDict, false, .dict []⟩ (by simp [sampleSchema]) rfl⟩

theorem findPipelineTemplate_append_isSome (ts : List RailPipelineTemplate)
    (t2 : RailPipelineTemplate) (nm : String)
    (h : (findPipelineTemplate ts nm).isSome = true) :
    (findPipelineTemplate (ts ++ [t2]) nm).isSome = true := by
  induction ts with
  | nil => simp [findPipelineTemplate] at h
  | cons t rest ih =>
      by_cases ht : t.name = nm
      · simp [findPipelineTemplate, ht]
      · have h2 : (findPipelineTemplate rest nm).isSome = true := by
          simpa [findPipelineTemplate, ht] using h
        simpa [findPipelineTemplate, ht] using ih h2

/-- Claim C10: referential integrity of pipeline instances — a
successfully loaded Pipelines category only holds instances whose
pipeline_template names a registered template (provided the initial
registry already satisfied this), resolving an instance applies its
overrides on top of the named template configuration, an instance with a
dangling reference cannot be resolved, and the ci_pipelines example loads
with the tomography_baseline instance resolving against the tomography
template (overridden algorithms, inherited n_tomo_bins). -/
theorem claim_C10_pipeline_referential_integrity :
    (∀ (entries : List PipelineEntry) (lib0 lib : PipelineLibrary),
        loadPipelineEntries entries lib0 = .ok lib →
        (∀ i ∈ lib0.instances,
          (findPipelineTemplate lib0.templates i.pipeline_template).isSome = true) →
        ∀ i ∈ lib.instances,
          (findPipelineTemplate lib.templates i.pipeline_template).isSome = true)
    ∧ (∀ (ts : List RailPipelineTemplate) (i : RailPipelineInstance),
        findPipelineTemplate ts i.pipeline_template = none →
        resolveInstance ts i = .error .unknownComponent)
    ∧ (∀ (ts : List RailPipelineTemplate) (i : RailPipelineInstance)
        (t : RailPipelineTemplate),
        findPipelineTemplate ts i.pipeline_template = some t →
        resolveInstance ts i = .ok (deepMerge t.config i.pipeline_overrides))
    ∧ loadPipelineEntries ciPipelineEntries ⟨[], []⟩
        = .ok ⟨ciPipelineTemplates, [tomographyBaselineInstance]⟩
    ∧ resolveInstance ciPipelineTemplates tomographyBaselineInstance
        = .ok (deepMerge tomographyPipelineTemplate.config
            tomographyBaselineInstance.pipeline_overrides)
    ∧ lookupPath (deepMerge tomographyPipelineTemplate.config
          tomographyBaselineInstance.pipeline_overrides) ["kwargs", "algorithms"]
        = some (.ls ["gpz"])
    ∧ lookupPath (deepMerge tomographyPipelineTemplate.config
          tomographyBaselineInstance.pipeline_overrides) ["kwargs", "n_tomo_bins"]
        = some (.n 5) := by
  refine ⟨?_, ?_, ?_, rfl, rfl, ?_, ?_⟩
  · intro entries
    induction entries with
    | nil =>
        intro lib0 lib h hinv
        simp [loadPipelineEntries] at h
        subst h
        exact hinv
    | cons e rest ih =>
        intro lib0 lib h hinv
        cases e with
        | template t =>
            simp only [loadPipelineEntries] at h
            refine ih ⟨lib0.templates ++ [t], lib0.instances⟩ lib h ?_
            intro i hi
            exact findPipelineTemplate_append_isSome lib0.templates t
              i.pipeline_template (hinv i hi)
        | inst i0 =>
            simp only [loadPipelineEntries] at h
            cases hf : findPipelineTemplate lib0.templates i0.pipeline_template with
            | none => rw [hf] at h; exact absurd h (by simp)
            | some t0 =>
                rw [hf] at h
                refine ih ⟨lib0.templates, lib0.instances ++ [i0]⟩ lib h ?_
                intro i hi
                rcases List.mem_append.mp hi with h1 | h1
                · exact hinv i h1
                · have : i = i0 := by simpa using h1
                  subst this
                  simp [hf]
  · intro ts i h
    simp [resolveInstance, h]
  · intro ts i t h
    simp [resolveInstance, h]
  · simp [tomographyPipelineTemplate, tomographyBaselineInstance, alookup,
      deepMerge_dict, mergeFields, mergeEntry, lookupPath, List.filter]
  · simp [tomographyPipelineTemplate, tomographyBaselineInstance, alookup,
      deepMerge_dict, mergeFields, mergeEntry, lookupPath, List.filter]

theorem claim_C10_pipeline_referential_integrity_witness :
    (findPipelineTemplate ciPipelineTemplates
        tomographyBaselineInstance.pipeline_template).isSome = true
    ∧ resolveInstance [] tomographyBaselineInstance = .error .unknownComponent
    ∧ resolveInstance ciPipelineTemplates tomographyBaselineInstance
        = .ok (deepMerge tomographyPipelineTemplate.config
            tomographyBaselineInstance.pipeline_overrides) :=
  ⟨claim_C10_pipeline_referential_integrity.1 ciPipelineEntries ⟨[], []⟩
      ⟨ciPipelineTemplates, [tomographyBaselineInstance]⟩
      claim_C10_pipeline_referential_integrity.2.2.2.1 (by simp)
      tomographyBaselineInstance (by simp),
   claim_C10_pipeline_referential_integrity.2.1 [] tomographyBaselineInstance rfl,
   claim_C10_pipeline_referential_integrity.2.2.1 ciPipelineTemplates
      tomographyBaselineInstance tomographyPipelineTemplate rfl⟩
